import Mathlib

/-!
Verification development for the OpenMW multi-threaded physics task scheduler
(`apps/openmw/mwphysics/mtphysics.cpp`).

Shallow embedding conventions:
* C++ `float`/`double` arithmetic is modelled with exact rationals (`ℚ`);
  the literals `0.95`, `0.5`, `0.00001` become `95/100`, `1/2`, `1/100000`.
* `int` values are modelled with `ℤ`; the C++ float-to-int conversion
  truncates toward zero, modelled by `ratTrunc`.
* The LOS ("line of sight") cache, a `std::vector<LOSRequest>`, is modelled
  as a `List`; actors are identified by `Nat` ids and weak-pointer
  resolution (`std::weak_ptr::lock`) by a predicate `alive : Nat → Bool`.
* Wall-clock measurements (the results of `mBudget.get()` /
  `mAsyncBudget.get()`) are inputs of the model.
-/

namespace MWPhysics

/-- The timing-related fields of `PhysicsTaskScheduler` read by
`calculateStepConfig`: the two smoothed budget measurements (the values of
`mBudget.get()` and `mAsyncBudget.get()`) and the fixed target step duration
`mDefaultPhysicsDt`. -/
structure SchedulerTiming where
  mBudget : ℚ
  mAsyncBudget : ℚ
  mDefaultPhysicsDt : ℚ
deriving DecidableEq

/-- C++ float-to-int conversion: truncation toward zero. -/
def ratTrunc (q : ℚ) : ℤ := if 0 ≤ q then ⌊q⌋ else ⌈q⌉

/-- The measured budget ratio before the sanity floor: the larger of the two
budget measurements divided by the target step duration
(`std::max(mBudget.get(), mAsyncBudget.get()) / mDefaultPhysicsDt`). -/
def rawBudgetMeasurement (s : SchedulerTiming) : ℚ :=
  max s.mBudget s.mAsyncBudget / s.mDefaultPhysicsDt

/-- `budgetMeasurement` as used by `calculateStepConfig`, after the
"ensure sane minimum value" clamp `std::max(0.00001f, budgetMeasurement)`. -/
def budgetMeasurement (s : SchedulerTiming) : ℚ :=
  max (1 / 100000) (rawBudgetMeasurement s)

/-- The `maxAllowedSteps` local of `PhysicsTaskScheduler::calculateStepConfig`:
starts at 2, becomes 1 when the budget measurement exceeds 0.95, becomes
`ceil(1/budgetMeasurement)` when the measurement is below 0.5, and is finally
clamped to at most 10. -/
def maxAllowedSteps (s : SchedulerTiming) : ℤ :=
  let b := budgetMeasurement s
  let m1 : ℤ := if (95 : ℚ) / 100 < b then 1 else 2
  let m2 : ℤ := if b < 1 / 2 then ⌈(1 : ℚ) / b⌉ else m1
  min 10 m2

/-- `PhysicsTaskScheduler::calculateStepConfig(timeAccum)`: returns
`(numSteps, actualDelta)`. `numSteps` starts as the truncation of
`timeAccum / mDefaultPhysicsDt`; when it exceeds `maxAllowedSteps` the
scheduler falls back to variable-timestep mode with
`actualDelta = max(timeAccum/(numSteps+1), mDefaultPhysicsDt)`. -/
def calculateStepConfig (s : SchedulerTiming) (timeAccum : ℚ) : ℤ × ℚ :=
  let m := maxAllowedSteps s
  let numSteps := ratTrunc (timeAccum / s.mDefaultPhysicsDt)
  if m < numSteps then
    (m, max (timeAccum / ((m : ℚ) + 1)) s.mDefaultPhysicsDt)
  else
    (numSteps, s.mDefaultPhysicsDt)

/-- The accumulated-time update performed by
`PhysicsTaskScheduler::applyQueuedMovements`:
`timeAccum -= numSteps*newDelta` with `(numSteps, newDelta)` from
`calculateStepConfig`. -/
def applyQueuedMovementsAccum (s : SchedulerTiming) (timeAccum : ℚ) : ℚ :=
  timeAccum
    - ((calculateStepConfig s timeAccum).1 : ℚ) * (calculateStepConfig s timeAccum).2

/-- The budget measurement is at least the sanity floor `0.00001`. -/
lemma budgetMeasurement_ge (s : SchedulerTiming) :
    1 / 100000 ≤ budgetMeasurement s := le_max_left _ _

/-- The budget measurement is positive. -/
lemma budgetMeasurement_pos (s : SchedulerTiming) : 0 < budgetMeasurement s :=
  lt_of_lt_of_le (by norm_num) (budgetMeasurement_ge s)

/-- `maxAllowedSteps` is at least 1. -/
lemma one_le_maxAllowedSteps (s : SchedulerTiming) : 1 ≤ maxAllowedSteps s := by
  unfold maxAllowedSteps
  have hb := budgetMeasurement_pos s
  dsimp only
  split
  · refine le_min (by norm_num) ?_
    rw [Int.one_le_ceil_iff]
    positivity
  · split <;> norm_num

/-- `maxAllowedSteps` is at most 10. -/
lemma maxAllowedSteps_le_ten (s : SchedulerTiming) : maxAllowedSteps s ≤ 10 :=
  min_le_left _ _

/-- On nonnegative input, `ratTrunc` is the floor. -/
lemma ratTrunc_of_nonneg {q : ℚ} (h : 0 ≤ q) : ratTrunc q = ⌊q⌋ := if_pos h

/-- Characterization of the variable-timestep fallback branch. -/
lemma calculateStepConfig_of_gt {s : SchedulerTiming} {t : ℚ}
    (h : maxAllowedSteps s < ratTrunc (t / s.mDefaultPhysicsDt)) :
    calculateStepConfig s t =
      (maxAllowedSteps s,
        max (t / ((maxAllowedSteps s : ℚ) + 1)) s.mDefaultPhysicsDt) := by
  simp only [calculateStepConfig, if_pos h]

/-- Characterization of the fixed-timestep branch. -/
lemma calculateStepConfig_of_le {s : SchedulerTiming} {t : ℚ}
    (h : ratTrunc (t / s.mDefaultPhysicsDt) ≤ maxAllowedSteps s) :
    calculateStepConfig s t =
      (ratTrunc (t / s.mDefaultPhysicsDt), s.mDefaultPhysicsDt) := by
  simp only [calculateStepConfig, if_neg (not_lt.2 h)]

/-- The returned step count never exceeds `maxAllowedSteps`. -/
lemma numSteps_le_maxAllowedSteps (s : SchedulerTiming) (t : ℚ) :
    (calculateStepConfig s t).1 ≤ maxAllowedSteps s := by
  rcases lt_or_le (maxAllowedSteps s) (ratTrunc (t / s.mDefaultPhysicsDt)) with h | h
  · rw [calculateStepConfig_of_gt h]
  · rw [calculateStepConfig_of_le h]
    exact h

/-- When the raw budget measurement exceeds 0.95, `maxAllowedSteps` is 1. -/
lemma maxAllowedSteps_of_high {s : SchedulerTiming}
    (h : (95 : ℚ) / 100 < rawBudgetMeasurement s) : maxAllowedSteps s = 1 := by
  have hb : budgetMeasurement s = rawBudgetMeasurement s :=
    max_eq_right (le_trans (by norm_num) h.le)
  have h2 : ¬ rawBudgetMeasurement s < 1 / 2 := not_lt.2 (le_trans (by norm_num) h.le)
  simp only [maxAllowedSteps, hb]
  rw [if_neg h2, if_pos h]
  norm_num

/-- Claim C7: for every accumulated time and every budget state, the `stepDt`
returned by `calculateStepConfig` is never less than the fixed target step
duration `mDefaultPhysicsDt`: it equals the target outside the fallback, and
in the variable-timestep fallback `timeAccum/(numSteps+1)` is floored to the
target. -/
theorem stepDt_ge_target (s : SchedulerTiming) (t : ℚ) :
    s.mDefaultPhysicsDt ≤ (calculateStepConfig s t).2 := by
  rcases lt_or_le (maxAllowedSteps s) (ratTrunc (t / s.mDefaultPhysicsDt)) with h | h
  · rw [calculateStepConfig_of_gt h]
    exact le_max_right _ _
  · rw [calculateStepConfig_of_le h]

/-- Claim C1: for every nonnegative accumulated time (and positive target step
duration), `calculateStepConfig` returns `(numSteps, stepDt)` with
`numSteps * stepDt ≤ timeAccum`, so the leftover carried to the next frame by
`applyQueuedMovements` (`timeAccum -= numSteps*newDelta`) is never negative:
the scheduler never simulates further ahead than the real elapsed time. -/
theorem calculateStepConfig_no_overrun (s : SchedulerTiming) (t : ℚ)
    (ht : 0 ≤ t) (hdt : 0 < s.mDefaultPhysicsDt) :
    ((calculateStepConfig s t).1 : ℚ) * (calculateStepConfig s t).2 ≤ t ∧
      0 ≤ applyQueuedMovementsAccum s t := by
  have hqnn : 0 ≤ t / s.mDefaultPhysicsDt := div_nonneg ht hdt.le
  have key : ((calculateStepConfig s t).1 : ℚ) * (calculateStepConfig s t).2 ≤ t := by
    rcases lt_or_le (maxAllowedSteps s) (ratTrunc (t / s.mDefaultPhysicsDt)) with h | h
    · rw [calculateStepConfig_of_gt h]
      have hm1 : 1 ≤ maxAllowedSteps s := one_le_maxAllowedSteps s
      have hmq : (1 : ℚ) ≤ (maxAllowedSteps s : ℚ) := by exact_mod_cast hm1
      rcases max_cases (t / ((maxAllowedSteps s : ℚ) + 1)) s.mDefaultPhysicsDt with
        ⟨heq, _⟩ | ⟨heq, _⟩
      · rw [heq]
        rw [mul_div_assoc', div_le_iff₀ (by linarith)]
        nlinarith
      · rw [heq]
        have hfl : ((maxAllowedSteps s : ℚ)) ≤ t / s.mDefaultPhysicsDt := by
          rw [ratTrunc_of_nonneg hqnn] at h
          calc ((maxAllowedSteps s : ℚ)) ≤ (⌊t / s.mDefaultPhysicsDt⌋ : ℚ) := by
                exact_mod_cast h.le
            _ ≤ t / s.mDefaultPhysicsDt := Int.floor_le _
        calc (maxAllowedSteps s : ℚ) * s.mDefaultPhysicsDt
            ≤ (t / s.mDefaultPhysicsDt) * s.mDefaultPhysicsDt :=
              mul_le_mul_of_nonneg_right hfl hdt.le
          _ = t := div_mul_cancel₀ t hdt.ne'
    · rw [calculateStepConfig_of_le h]
      have hfl : ((ratTrunc (t / s.mDefaultPhysicsDt) : ℚ)) ≤ t / s.mDefaultPhysicsDt := by
        rw [ratTrunc_of_nonneg hqnn]
        exact Int.floor_le _
      calc ((ratTrunc (t / s.mDefaultPhysicsDt) : ℚ)) * s.mDefaultPhysicsDt
          ≤ (t / s.mDefaultPhysicsDt) * s.mDefaultPhysicsDt :=
            mul_le_mul_of_nonneg_right hfl hdt.le
        _ = t := div_mul_cancel₀ t hdt.ne'
  refine ⟨key, ?_⟩
  unfold applyQueuedMovementsAccum
  linarith

/-- Witness for C1 at a concrete input: budgets `1/60` and `0`, target step
`1/60`, accumulated time `1`. -/
theorem calculateStepConfig_no_overrun_witness :
    (0 : ℚ) ≤ 1 ∧ (0 : ℚ) < (SchedulerTiming.mk (1/60) 0 (1/60)).mDefaultPhysicsDt ∧
      (((calculateStepConfig ⟨1/60, 0, 1/60⟩ 1).1 : ℚ)
          * (calculateStepConfig ⟨1/60, 0, 1/60⟩ 1).2 ≤ 1 ∧
        0 ≤ applyQueuedMovementsAccum ⟨1/60, 0, 1/60⟩ 1) :=
  ⟨by norm_num, by norm_num,
    calculateStepConfig_no_overrun ⟨1/60, 0, 1/60⟩ 1 (by norm_num) (by norm_num)⟩

/-- Counterexample to claim C2 as stated: the code tests `budgetMeasurement >
0.95` strictly, so at a measured ratio of exactly 0.95 (budgets 19/20 and 0,
target step 1) with 2 accumulated steps the result is 2 steps, not 1; and even
with ratio 2 > 0.95, zero accumulated time yields 0 steps, not 1. -/
theorem highBudget_cap_cex :
    ((95 : ℚ) / 100 ≤ rawBudgetMeasurement ⟨19/20, 0, 1⟩ ∧
      (calculateStepConfig ⟨19/20, 0, 1⟩ 2).1 = 2) ∧
    ((95 : ℚ) / 100 ≤ rawBudgetMeasurement ⟨2, 0, 1⟩ ∧
      (calculateStepConfig ⟨2, 0, 1⟩ 0).1 = 0) := by
  norm_num [calculateStepConfig, maxAllowedSteps, budgetMeasurement,
    rawBudgetMeasurement, ratTrunc]

/-- Claim C2 (amended): if the measured budget ratio is strictly greater than
0.95 (and the target step duration is positive), `maxAllowedSteps` is 1, so
the `numSteps` returned by `calculateStepConfig` is at most 1 — and exactly 1
whenever at least one target step duration has accumulated. -/
theorem numSteps_le_one_of_high_budget (s : SchedulerTiming) (t : ℚ)
    (h : (95 : ℚ) / 100 < rawBudgetMeasurement s)
    (hdt : 0 < s.mDefaultPhysicsDt) :
    (calculateStepConfig s t).1 ≤ 1 ∧
      (s.mDefaultPhysicsDt ≤ t → (calculateStepConfig s t).1 = 1) := by
  have hm : maxAllowedSteps s = 1 := maxAllowedSteps_of_high h
  have hle := numSteps_le_maxAllowedSteps s t
  refine ⟨by omega, ?_⟩
  intro hacc
  have h1 : (1 : ℚ) ≤ t / s.mDefaultPhysicsDt := by
    rw [le_div_iff₀ hdt, one_mul]
    exact hacc
  have hfl : 1 ≤ ratTrunc (t / s.mDefaultPhysicsDt) := by
    rw [ratTrunc_of_nonneg (le_trans zero_le_one h1)]
    exact Int.le_floor.2 (by exact_mod_cast h1)
  rcases lt_or_le (maxAllowedSteps s) (ratTrunc (t / s.mDefaultPhysicsDt)) with hc | hc
  · rw [calculateStepConfig_of_gt hc]
    exact hm
  · rw [calculateStepConfig_of_le hc]
    omega

/-- Witness for the amended C2: budgets `1` and `0`, target step `1/60`,
accumulated time `1`. -/
theorem numSteps_le_one_of_high_budget_witness :
    (95 : ℚ) / 100 < rawBudgetMeasurement ⟨1, 0, 1/60⟩ ∧
      (0 : ℚ) < (1 : ℚ) / 60 ∧
      ((calculateStepConfig ⟨1, 0, 1/60⟩ 1).1 ≤ 1 ∧
        ((1 : ℚ) / 60 ≤ 1 → (calculateStepConfig ⟨1, 0, 1/60⟩ 1).1 = 1)) :=
  ⟨by norm_num [rawBudgetMeasurement], by norm_num,
    numSteps_le_one_of_high_budget ⟨1, 0, 1/60⟩ 1
      (by norm_num [rawBudgetMeasurement]) (by norm_num)⟩

/-- Claim C8: when the measured budget ratio is positive and below 0.5, the
maximum allowed step count is `ceil(1/ratio)` clamped to at most 10; and the
returned `numSteps` never exceeds 10 for any input. -/
theorem maxAllowedSteps_cheap_and_cap (s : SchedulerTiming) (t : ℚ) :
    (0 < rawBudgetMeasurement s → rawBudgetMeasurement s < 1 / 2 →
        maxAllowedSteps s = min 10 ⌈(1 : ℚ) / rawBudgetMeasurement s⌉) ∧
      (calculateStepConfig s t).1 ≤ 10 := by
  constructor
  · intro hpos hlt
    rcases le_or_lt (1 / 100000 : ℚ) (rawBudgetMeasurement s) with hge | hlt2
    · have hb : budgetMeasurement s = rawBudgetMeasurement s := max_eq_right hge
      simp only [maxAllowedSteps, hb]
      rw [if_pos hlt]
    · have hb : budgetMeasurement s = 1 / 100000 := max_eq_left hlt2.le
      simp only [maxAllowedSteps, hb]
      rw [if_pos (by norm_num : (1 : ℚ) / 100000 < 1 / 2)]
      have hceil : (100000 : ℤ) < ⌈(1 : ℚ) / rawBudgetMeasurement s⌉ := by
        rw [Int.lt_ceil]
        push_cast
        rw [lt_div_iff₀ hpos]
        nlinarith
      have e1 : ⌈(1 : ℚ) / (1 / 100000)⌉ = 100000 := by norm_num
      rw [e1, min_eq_left (by norm_num : (10 : ℤ) ≤ 100000),
        min_eq_left (le_of_lt (lt_of_le_of_lt (by norm_num) hceil))]
  · exact le_trans (numSteps_le_maxAllowedSteps s t) (maxAllowedSteps_le_ten s)

/-- Witness for C8: budgets `1/10` and `0`, target step `1`, accumulated
time `25` (the cheap-physics branch with `ceil(1/ratio) = 10`). -/
theorem maxAllowedSteps_cheap_and_cap_witness :
    ((0 : ℚ) < rawBudgetMeasurement ⟨1/10, 0, 1⟩ ∧
      rawBudgetMeasurement ⟨1/10, 0, 1⟩ < 1 / 2 ∧
      maxAllowedSteps ⟨1/10, 0, 1⟩
        = min 10 ⌈(1 : ℚ) / rawBudgetMeasurement ⟨1/10, 0, 1⟩⌉) ∧
    (calculateStepConfig ⟨1/10, 0, 1⟩ 25).1 ≤ 10 :=
  ⟨⟨by norm_num [rawBudgetMeasurement], by norm_num [rawBudgetMeasurement],
      (maxAllowedSteps_cheap_and_cap ⟨1/10, 0, 1⟩ 25).1
        (by norm_num [rawBudgetMeasurement]) (by norm_num [rawBudgetMeasurement])⟩,
    (maxAllowedSteps_cheap_and_cap ⟨1/10, 0, 1⟩ 25).2⟩

/-- Claim C10: when the measured budget ratio lies in `[0.5, 0.95]`, neither
the expensive-physics nor the cheap-physics branch fires, so `maxAllowedSteps`
keeps its default value 2 and the returned step count is at most 2. -/
theorem maxAllowedSteps_default_regime (s : SchedulerTiming) (t : ℚ)
    (h1 : 1 / 2 ≤ rawBudgetMeasurement s)
    (h2 : rawBudgetMeasurement s ≤ 95 / 100) :
    maxAllowedSteps s = 2 ∧ (calculateStepConfig s t).1 ≤ 2 := by
  have hb : budgetMeasurement s = rawBudgetMeasurement s :=
    max_eq_right (le_trans (by norm_num) h1)
  have hm : maxAllowedSteps s = 2 := by
    simp only [maxAllowedSteps, hb]
    rw [if_neg (not_lt.2 h1), if_neg (not_lt.2 h2)]
    norm_num
  have hle := numSteps_le_maxAllowedSteps s t
  exact ⟨hm, by omega⟩

/-- Witness for C10: budgets `3/4` and `0`, target step `1`, accumulated
time `5`. -/
theorem maxAllowedSteps_default_regime_witness :
    (1 : ℚ) / 2 ≤ rawBudgetMeasurement ⟨3/4, 0, 1⟩ ∧
      rawBudgetMeasurement ⟨3/4, 0, 1⟩ ≤ 95 / 100 ∧
      (maxAllowedSteps ⟨3/4, 0, 1⟩ = 2 ∧
        (calculateStepConfig ⟨3/4, 0, 1⟩ 5).1 ≤ 2) :=
  ⟨by norm_num [rawBudgetMeasurement], by norm_num [rawBudgetMeasurement],
    maxAllowedSteps_default_regime ⟨3/4, 0, 1⟩ 5
      (by norm_num [rawBudgetMeasurement]) (by norm_num [rawBudgetMeasurement])⟩

/-! ## Worker-thread configuration (`Config::computeNumThreads`) -/

/-- The outputs of `Config::computeNumThreads`: the probed
`threadSafeBullet` out-parameter, the returned thread count, and whether the
warning about missing multithreading support was logged. -/
structure NumThreadsResult where
  threadSafeBullet : Bool
  numThreads : ℤ
  warned : Bool
deriving DecidableEq

/-- `Config::computeNumThreads`: probes Bullet's broadphase for the number of
supported concurrent ray-test stacks (`maxSupportedThreads`); Bullet is thread
safe when that exceeds 1. If it is not and more than one thread was wanted,
log a warning and return 1; otherwise return `std::max(0, wantedThread)`. -/
def computeNumThreads (maxSupportedThreads : ℕ) (wantedThread : ℤ) : NumThreadsResult :=
  let threadSafeBullet : Bool := decide (1 < maxSupportedThreads)
  if !threadSafeBullet && decide (1 < wantedThread) then
    { threadSafeBullet := threadSafeBullet, numThreads := 1, warned := true }
  else
    { threadSafeBullet := threadSafeBullet, numThreads := max 0 wantedThread,
      warned := false }

/-! ## Collision-world locking discipline -/

/-- The two ways a call site can take the collision-world mutex. -/
inductive LockKind where
  | sharedLock
  | exclusiveLock
deriving DecidableEq

/-- The anonymous-namespace `MaybeSharedLock` guard: shared when
`canBeSharedLock` holds, exclusive otherwise. -/
def maybeSharedLock (canBeSharedLock : Bool) : LockKind :=
  if canBeSharedLock then .sharedLock else .exclusiveLock

/-- `PhysicsTaskScheduler::rayTest` locks via `MaybeSharedLock` keyed on
`mThreadSafeBullet`. -/
def rayTestLockKind (threadSafeBullet : Bool) : LockKind :=
  maybeSharedLock threadSafeBullet

/-- `PhysicsTaskScheduler::convexSweepTest` locks via `MaybeSharedLock`. -/
def convexSweepTestLockKind (threadSafeBullet : Bool) : LockKind :=
  maybeSharedLock threadSafeBullet

/-- `PhysicsTaskScheduler::getHitPoint` locks via `MaybeSharedLock`. -/
def getHitPointLockKind (threadSafeBullet : Bool) : LockKind :=
  maybeSharedLock threadSafeBullet

/-- `PhysicsTaskScheduler::hasLineOfSight` locks via `MaybeSharedLock`. -/
def hasLineOfSightLockKind (threadSafeBullet : Bool) : LockKind :=
  maybeSharedLock threadSafeBullet

/-- The movement-integration loop in `PhysicsTaskScheduler::worker` locks via
`MaybeSharedLock`. -/
def workerMoveLockKind (threadSafeBullet : Bool) : LockKind :=
  maybeSharedLock threadSafeBullet

/-- `PhysicsTaskScheduler::contactTest` takes `std::shared_lock`
unconditionally. -/
def contactTestLockKind (_threadSafeBullet : Bool) : LockKind := .sharedLock

/-- `PhysicsTaskScheduler::aabbTest` takes `std::shared_lock`
unconditionally. -/
def aabbTestLockKind (_threadSafeBullet : Bool) : LockKind := .sharedLock

/-- `PhysicsTaskScheduler::getAabb` takes `std::shared_lock`
unconditionally. -/
def getAabbLockKind (_threadSafeBullet : Bool) : LockKind := .sharedLock

/-- `PhysicsTaskScheduler::setCollisionFilterMask` takes `std::unique_lock`. -/
def setCollisionFilterMaskLockKind (_threadSafeBullet : Bool) : LockKind :=
  .exclusiveLock

/-- `PhysicsTaskScheduler::addCollisionObject` takes `std::unique_lock`. -/
def addCollisionObjectLockKind (_threadSafeBullet : Bool) : LockKind :=
  .exclusiveLock

/-- `PhysicsTaskScheduler::removeCollisionObject` takes `std::unique_lock`. -/
def removeCollisionObjectLockKind (_threadSafeBullet : Bool) : LockKind :=
  .exclusiveLock

/-- `PhysicsTaskScheduler::updatePtrAabb` (the AABB commit) takes
`std::scoped_lock`, i.e. the exclusive lock. -/
def updatePtrAabbLockKind (_threadSafeBullet : Bool) : LockKind :=
  .exclusiveLock

/-! ## Line-of-sight cache -/

/-- `LOSRequest` (declared in `mtphysics.hpp`, used throughout
`mtphysics.cpp`): an actor pair with a cached result, an age and a staleness
flag. Actors are identified by `ℕ` ids; the weak references' liveness is
modelled separately by a predicate. -/
structure LOSRequest where
  mActors : ℕ × ℕ
  mResult : Bool
  mAge : ℤ
  mStale : Bool
deriving DecidableEq

/-- The sorted form of an unordered actor pair. -/
def sortPair (a b : ℕ) : ℕ × ℕ := if a ≤ b then (a, b) else (b, a)

/-- Modelled from the spec: `LOSRequest`'s constructor lives in
`mtphysics.hpp`, which is not among the sources; a request created on first
query stores the unordered actor pair (kept here in sorted form), the computed
result, age 0 and no staleness. -/
def mkLOSRequest (a b : ℕ) (result : Bool) : LOSRequest :=
  { mActors := sortPair a b, mResult := result, mAge := 0, mStale := false }

/-- Modelled from the spec: `LOSRequest::operator==` lives in
`mtphysics.hpp`; per §4.6 the cache is looked up "by unordered actor pair",
so a request matches a query when its stored pair is the query's sorted
pair. -/
def losMatches (r : LOSRequest) (a b : ℕ) : Bool :=
  decide (r.mActors = sortPair a b)

/-- The in-place `result->mAge = 0` update on the first matching entry of the
cache (`std::find` returns the first match). -/
def losUpdateHit : List LOSRequest → ℕ → ℕ → List LOSRequest
  | [], _, _ => []
  | r :: rest, a, b =>
    if losMatches r a b then { r with mAge := 0 } :: rest
    else r :: losUpdateHit rest a b

/-- `PhysicsTaskScheduler::getLineOfSight(actor1, actor2)`: look the pair up
in the cache; on a miss, perform the ray test (its outcome is the parameter
`ray`, standing for `hasLineOfSight(actor1, actor2)`), append the fresh
request and return its result; on a hit, reset the entry's age to 0 and
return the cached result. Returns `(result, new cache, ray test issued)`. -/
def getLineOfSight (cache : List LOSRequest) (a b : ℕ) (ray : Bool) :
    Bool × List LOSRequest × Bool :=
  match cache.find? (fun r => losMatches r a b) with
  | none => (ray, cache ++ [mkLOSRequest a b ray], true)
  | some r => (r.mResult, losUpdateHit cache a b, false)

/-- One iteration of the `refreshLOSCache` loop on a single entry. `alive`
models whether `std::weak_ptr::lock` on an actor id succeeds; `ray` models the
`hasLineOfSight` recomputation performed on entries that stay fresh. Note the
post-increment `req.mAge++`: the old age is compared against the expiry, and
the age is incremented either way. -/
def refreshEntry (expiry : ℤ) (alive : ℕ → Bool) (ray : LOSRequest → Bool)
    (r : LOSRequest) : LOSRequest :=
  if decide (expiry < r.mAge) || !alive r.mActors.1 || !alive r.mActors.2 then
    { r with mAge := r.mAge + 1, mStale := true }
  else
    { r with mAge := r.mAge + 1, mResult := ray r }

/-- `PhysicsTaskScheduler::refreshLOSCache`: every cache entry is processed
exactly once (the work-stealing loop over `mNextLOS`), each by
`refreshEntry`. -/
def refreshLOSCache (expiry : ℤ) (alive : ℕ → Bool) (ray : LOSRequest → Bool)
    (cache : List LOSRequest) : List LOSRequest :=
  cache.map (refreshEntry expiry alive ray)

/-- The stale-entry removal performed in
`PhysicsTaskScheduler::afterPostSim` (`std::remove_if` + `erase` on the
stale flag). -/
def afterPostSimLOS (cache : List LOSRequest) : List LOSRequest :=
  cache.filter (fun r => !r.mStale)

/-! ## Scheduler state touched by `resetSimulation` -/

/-- Modelled from the spec: the `Budget` class is declared in
`mtphysics.hpp`, which is not among the sources. §4.1 specifies
`reset(initialValue)` and `get()` returning the current smoothed estimate, so
the model keeps just that estimate, which `reset` replaces. -/
structure TimeBudget where
  value : ℚ
deriving DecidableEq

/-- `Budget::get()`: the current smoothed estimate. -/
def TimeBudget.get (b : TimeBudget) : ℚ := b.value

/-- `Budget::reset(initialValue)` (modelled from the spec, see
`TimeBudget`). -/
def TimeBudget.reset (_b : TimeBudget) (v : ℚ) : TimeBudget := ⟨v⟩

/-- The `PhysicsTaskScheduler` fields touched by (or relevant to)
`resetSimulation`. `ActorT` and `FrameT` stand for `std::shared_ptr<Actor>`
and `ActorFrameData`. -/
structure SchedulerState (ActorT FrameT : Type) where
  mDefaultPhysicsDt : ℚ
  mBudget : TimeBudget
  mAsyncBudget : TimeBudget
  mActors : List ActorT
  mActorsFrameData : List FrameT
  mLOSCache : List LOSRequest

/-- `PhysicsTaskScheduler::resetSimulation(actors)`: resets `mBudget` to
`mDefaultPhysicsDt` and `mAsyncBudget` to `0.0f`, clears `mActors` and
`mActorsFrameData`, and refreshes each argument actor's positions (a side
effect on the actors, not on the scheduler state). It does not touch the LOS
cache. -/
def resetSimulation {ActorT FrameT : Type} (s : SchedulerState ActorT FrameT) :
    SchedulerState ActorT FrameT :=
  { s with
    mBudget := s.mBudget.reset s.mDefaultPhysicsDt
    mAsyncBudget := s.mAsyncBudget.reset 0
    mActors := []
    mActorsFrameData := [] }

/-- Claim C9: if Bullet lacks multithreading support (the probe allows at most
one concurrent ray-test stack) and more than one worker thread is configured,
`computeNumThreads` warns and returns exactly 1; otherwise it returns the
configured value clamped below at 0 without warning. -/
theorem computeNumThreads_clamps (m : ℕ) (w : ℤ) :
    (computeNumThreads m w).threadSafeBullet = decide (1 < m) ∧
      ((computeNumThreads m w).threadSafeBullet = false → 1 < w →
        (computeNumThreads m w).numThreads = 1 ∧
          (computeNumThreads m w).warned = true) ∧
      ((computeNumThreads m w).threadSafeBullet = true ∨ w ≤ 1 →
        (computeNumThreads m w).numThreads = max 0 w ∧
          (computeNumThreads m w).warned = false) := by
  by_cases h1 : 1 < m <;> by_cases h2 : 1 < w <;>
    simp [computeNumThreads, h1, h2]

/-- Witness for C9: probe of 1 stack with 4 wanted threads clamps to 1 and
warns; probe of 4 stacks with -3 wanted threads returns `max 0 (-3)`. -/
theorem computeNumThreads_clamps_witness :
    ((computeNumThreads 1 4).threadSafeBullet = false ∧ (1 : ℤ) < 4 ∧
      ((computeNumThreads 1 4).numThreads = 1 ∧
        (computeNumThreads 1 4).warned = true)) ∧
    ((computeNumThreads 4 (-3)).threadSafeBullet = true ∧
      ((computeNumThreads 4 (-3)).numThreads = max 0 (-3) ∧
        (computeNumThreads 4 (-3)).warned = false)) :=
  ⟨⟨by decide, by decide, (computeNumThreads_clamps 1 4).2.1 (by decide) (by decide)⟩,
    ⟨by decide, (computeNumThreads_clamps 4 (-3)).2.2 (Or.inl (by decide))⟩⟩

/-- Counterexample to claim C4 as stated: with the multithreading-capability
flag false, `contactTest`, `aabbTest` and `getAabb` still take the shared
lock on the collision-world mutex, not the exclusive one. -/
theorem exclusiveLock_claim_cex :
    contactTestLockKind false ≠ .exclusiveLock ∧
      aabbTestLockKind false ≠ .exclusiveLock ∧
      getAabbLockKind false ≠ .exclusiveLock := by
  decide

/-- Claim C4 (amended): when the capability flag is false, the accesses routed
through `MaybeSharedLock` (`rayTest`, `convexSweepTest`, `getHitPoint`,
`hasLineOfSight`, the worker's movement integration) take the exclusive lock,
and every write (`addCollisionObject`, `removeCollisionObject`,
`setCollisionFilterMask`, the AABB commit) takes the exclusive lock in either
mode — but `contactTest`, `aabbTest` and `getAabb` take the shared lock
regardless of the flag. -/
theorem lockKinds_when_not_threadsafe :
    (rayTestLockKind false = .exclusiveLock ∧
      convexSweepTestLockKind false = .exclusiveLock ∧
      getHitPointLockKind false = .exclusiveLock ∧
      hasLineOfSightLockKind false = .exclusiveLock ∧
      workerMoveLockKind false = .exclusiveLock) ∧
    (∀ b, addCollisionObjectLockKind b = .exclusiveLock ∧
      removeCollisionObjectLockKind b = .exclusiveLock ∧
      setCollisionFilterMaskLockKind b = .exclusiveLock ∧
      updatePtrAabbLockKind b = .exclusiveLock) ∧
    (∀ b, contactTestLockKind b = .sharedLock ∧
      aabbTestLockKind b = .sharedLock ∧
      getAabbLockKind b = .sharedLock) := by
  decide

/-- Counterexample to claim C3 as stated: `resetSimulation` resets the async
budget to 0, not to the default step duration (here 1/60), and it leaves the
LOS cache untouched rather than emptying its per-agent tracking. -/
theorem resetSimulation_cex :
    (resetSimulation (SchedulerState.mk (1/60) ⟨3⟩ ⟨1/2⟩ ([] : List Unit)
          ([] : List Unit) [⟨(1, 2), true, 0, false⟩])).mAsyncBudget.get
        ≠ (1 : ℚ) / 60 ∧
      (resetSimulation (SchedulerState.mk (1/60) ⟨3⟩ ⟨1/2⟩ ([] : List Unit)
          ([] : List Unit) [⟨(1, 2), true, 0, false⟩])).mLOSCache ≠ [] := by
  constructor
  · norm_num [resetSimulation, TimeBudget.reset, TimeBudget.get]
  · simp [resetSimulation]

/-- Claim C3 (amended): `resetSimulation`, for any actor set, resets the
synchronous budget to the default step duration and the async budget to 0,
empties the stored actor and `ActorFrameData` lists, and leaves the LOS cache
unchanged. -/
theorem resetSimulation_spec {ActorT FrameT : Type}
    (s : SchedulerState ActorT FrameT) :
    (resetSimulation s).mBudget.get = s.mDefaultPhysicsDt ∧
      (resetSimulation s).mAsyncBudget.get = 0 ∧
      (resetSimulation s).mActors = [] ∧
      (resetSimulation s).mActorsFrameData = [] ∧
      (resetSimulation s).mLOSCache = s.mLOSCache :=
  ⟨rfl, rfl, rfl, rfl, rfl⟩

/-- Matching only looks at the stored actor pair. -/
lemma losMatches_set_age (r : LOSRequest) (a b : ℕ) (n : ℤ) :
    losMatches { r with mAge := n } a b = losMatches r a b := rfl

/-- A freshly created request matches its own pair. -/
lemma losMatches_mk (a b : ℕ) (res : Bool) :
    losMatches (mkLOSRequest a b res) a b = true := by
  simp [losMatches, mkLOSRequest]

/-- After the in-place age reset, the first match for the pair is the original
entry with age 0. -/
lemma find?_losUpdateHit (cache : List LOSRequest) (a b : ℕ) (r : LOSRequest)
    (h : cache.find? (fun q => losMatches q a b) = some r) :
    (losUpdateHit cache a b).find? (fun q => losMatches q a b)
      = some { r with mAge := 0 } := by
  induction cache with
  | nil => simp at h
  | cons x rest ih =>
    by_cases hx : losMatches x a b
    · rw [List.find?_cons_of_pos (p := fun q => losMatches q a b) rest hx] at h
      obtain rfl : x = r := by injection h
      simp only [losUpdateHit, if_pos hx]
      exact List.find?_cons_of_pos (p := fun q => losMatches q a b) rest
        ((losMatches_set_age x a b 0).trans hx)
    · rw [List.find?_cons_of_neg (p := fun q => losMatches q a b) rest hx] at h
      simp only [losUpdateHit, if_neg hx]
      rw [List.find?_cons_of_neg (p := fun q => losMatches q a b) _ hx]
      exact ih h

/-- Claim C5: if a cache entry for the unordered pair `{a, b}` exists,
`getLineOfSight` resets that entry's age to 0 and returns the cached boolean
without issuing a ray test; consequently two consecutive
`getLineOfSight(a, b)` calls (no refresh in between) return the same boolean
and the second call never issues a ray test. -/
theorem getLineOfSight_cache_hit (cache : List LOSRequest) (a b : ℕ)
    (ray1 ray2 : Bool) :
    (∀ r, cache.find? (fun q => losMatches q a b) = some r →
        (getLineOfSight cache a b ray1).1 = r.mResult ∧
          (getLineOfSight cache a b ray1).2.2 = false ∧
          (getLineOfSight cache a b ray1).2.1.find? (fun q => losMatches q a b)
            = some { r with mAge := 0 }) ∧
      (getLineOfSight (getLineOfSight cache a b ray1).2.1 a b ray2).1
          = (getLineOfSight cache a b ray1).1 ∧
      (getLineOfSight (getLineOfSight cache a b ray1).2.1 a b ray2).2.2
          = false := by
  rcases hfind : cache.find? (fun q => losMatches q a b) with _ | r
  · have h2 : (cache ++ [mkLOSRequest a b ray1]).find?
        (fun q => losMatches q a b) = some (mkLOSRequest a b ray1) := by
      rw [List.find?_append, hfind]
      simp [losMatches_mk]
    have e1 : getLineOfSight cache a b ray1
        = (ray1, cache ++ [mkLOSRequest a b ray1], true) := by
      unfold getLineOfSight
      rw [hfind]
    have e2 : getLineOfSight (cache ++ [mkLOSRequest a b ray1]) a b ray2
        = ((mkLOSRequest a b ray1).mResult,
            losUpdateHit (cache ++ [mkLOSRequest a b ray1]) a b, false) := by
      unfold getLineOfSight
      rw [h2]
    refine ⟨fun r hr => absurd hr (by simp), ?_, ?_⟩
    · rw [e1, e2]
      rfl
    · rw [e1, e2]
  · have hup := find?_losUpdateHit cache a b r hfind
    have e1 : getLineOfSight cache a b ray1
        = (r.mResult, losUpdateHit cache a b, false) := by
      unfold getLineOfSight
      rw [hfind]
    have e2 : getLineOfSight (losUpdateHit cache a b) a b ray2
        = (LOSRequest.mResult { r with mAge := 0 },
            losUpdateHit (losUpdateHit cache a b) a b, false) := by
      unfold getLineOfSight
      rw [hup]
    refine ⟨fun r' hr' => ?_, ?_, ?_⟩
    · obtain rfl : r = r' := by injection hr'
      exact ⟨by rw [e1], by rw [e1], by rw [e1]; exact hup⟩
    · rw [e1, e2]
    · rw [e1, e2]

/-- Witness for C5: a one-entry cache holding the pair `{1, 2}` with cached
result `true` and age 5, queried as `(2, 1)`. -/
theorem getLineOfSight_cache_hit_witness :
    (List.find? (fun q => losMatches q 2 1)
        [LOSRequest.mk (1, 2) true 5 false] = some (LOSRequest.mk (1, 2) true 5 false)) ∧
      ((getLineOfSight [LOSRequest.mk (1, 2) true 5 false] 2 1 false).1
          = (LOSRequest.mk (1, 2) true 5 false).mResult ∧
        (getLineOfSight [LOSRequest.mk (1, 2) true 5 false] 2 1 false).2.2 = false ∧
        (getLineOfSight [LOSRequest.mk (1, 2) true 5 false] 2 1 false).2.1.find?
            (fun q => losMatches q 2 1)
          = some { LOSRequest.mk (1, 2) true 5 false with mAge := 0 }) :=
  ⟨by decide,
    (getLineOfSight_cache_hit [LOSRequest.mk (1, 2) true 5 false] 2 1 false false).1
      (LOSRequest.mk (1, 2) true 5 false) (by decide)⟩

/-- Claim C6: the per-frame refresh increments every entry's age and marks an
entry stale exactly when its (pre-increment) age exceeds the expiry, one of
its actor references no longer resolves, or it was already stale; after the
post-simulation stale-removal pass, the surviving entries are exactly the
refreshed images of the entries that were within the expiry, alive and not
stale — in particular an entry whose age exceeds the expiry is absent. -/
theorem refreshLOSCache_eviction (e : ℤ) (alive : ℕ → Bool)
    (ray : LOSRequest → Bool) (cache : List LOSRequest) (r : LOSRequest) :
    (refreshEntry e alive ray r).mAge = r.mAge + 1 ∧
      (refreshEntry e alive ray r).mStale
        = (decide (e < r.mAge) || !alive r.mActors.1 || !alive r.mActors.2
            || r.mStale) ∧
      afterPostSimLOS (refreshLOSCache e alive ray cache)
        = (cache.filter (fun q => decide (q.mAge ≤ e) && alive q.mActors.1
            && alive q.mActors.2 && !q.mStale)).map (refreshEntry e alive ray) := by
  refine ⟨?_, ?_, ?_⟩
  · unfold refreshEntry
    split <;> rfl
  · cases h : (decide (e < r.mAge) || !alive r.mActors.1 || !alive r.mActors.2) <;>
      simp [refreshEntry, h]
  · have hfun : ∀ q : LOSRequest,
        (!(refreshEntry e alive ray q).mStale)
          = (decide (q.mAge ≤ e) && alive q.mActors.1 && alive q.mActors.2
              && !q.mStale) := by
      intro q
      by_cases h1 : e < q.mAge
      · simp [refreshEntry, h1, not_le.2 h1]
      · cases h2 : alive q.mActors.1 <;> cases h3 : alive q.mActors.2 <;>
          simp [refreshEntry, h1, not_lt.1 h1, h2, h3]
    unfold afterPostSimLOS refreshLOSCache
    rw [List.filter_map]
    congr 1
    exact List.filter_congr fun q _ => hfun q

end MWPhysics
